import Mathlib

/-!
# Verification of the workflowpro task-management core

Shallow embedding of the scheduling helper (`findAvailableTimeSlots`), the
calendar/task reconciliation layer (`TaskCalendar`), the kanban board drag
handler (`onDragEnd`), the task API routes (`POST`/`PUT`/`PATCH`/`DELETE`),
and the AI task-suggestion extraction (`extractTasksAndFormatResponse`).

Time is modelled in whole minutes since a reference epoch whose day 0 is a
Thursday (as for the Unix epoch), so the JavaScript `Date.getDay()` of a
timestamp `t` is `(t.fdiv 1440 + 4) % 7` (0 = Sunday .. 6 = Saturday).
Calendar positions produced by the application are full-minute timestamps,
so minute granularity is exact for the arithmetic the code performs
(millisecond differences divided by 60000 are whole numbers of minutes).
-/

namespace Workflowpro

/-- A busy calendar interval `[start, end)`, as consumed by
`findAvailableTimeSlots` (`calendarEvents` entries with `start`/`end`). -/
structure BusySlot where
  start : Int
  stop : Int
  deriving Repr, DecidableEq

/-- A free slot `{start, end, duration}` as pushed onto `availableSlots`. -/
structure FreeSlot where
  start : Int
  stop : Int
  duration : Int
  deriving Repr, DecidableEq

/-- Minutes in a day. -/
def minutesPerDay : Int := 1440

/-- Minutes from midnight at 09:00 (`workingHoursStart * 60`). -/
def workStartMin : Int := 9 * 60

/-- Minutes from midnight at 17:00 (`workingHoursEnd * 60`). -/
def workEndMin : Int := 17 * 60

/-- JavaScript `Date.getDay()` for a day index (day 0 of the epoch is a
Thursday, hence the `+ 4`): 0 = Sunday, 6 = Saturday. -/
def dayOfWeek (d : Int) : Int := (d + 4) % 7

/-- A day index is skipped by the finder when `getDay()` is 0 or 6. -/
def isWeekend (d : Int) : Bool := dayOfWeek d == 0 || dayOfWeek d == 6

/-- Local time 09:00 on day `d` (`currentDate` after `setHours(9,0,0,0)`). -/
def dayOpen (d : Int) : Int := d * minutesPerDay + workStartMin

/-- Local time 17:00 on day `d` (`endOfDay` after `setHours(17,0,0,0)`). -/
def dayClose (d : Int) : Int := d * minutesPerDay + workEndMin

/-- The day indices visited by the `while (currentDate < endDate)` loop of
`findAvailableTimeSlots`: the loop starts at 09:00 on the calendar day of
`startDate` and advances one day per iteration (weekend days included; they
are skipped inside the body), stopping once 09:00 of the day is no longer
before `endDate`. -/
def dayList (startDate endDate : Int) : List Int :=
  let d0 := startDate.fdiv minutesPerDay
  let dmax := (endDate - workStartMin - 1).fdiv minutesPerDay
  (List.range (dmax - d0 + 1).toNat).map (fun i => d0 + i)

/-- The inner sweep of `findAvailableTimeSlots` over one day's events:
`timePointer` starts at the day's 09:00; for each event, a gap
`[timePointer, event.start)` is emitted when `event.start > timePointer`
and the gap is at least `taskDuration` minutes; the pointer then advances
to `max(timePointer, event.end)`.  After the last event, the remaining gap
up to 17:00 is emitted when nonempty and long enough. -/
def sweepDay (taskDuration : Int) (timePointer close : Int) :
    List BusySlot → List FreeSlot
  | [] =>
    if timePointer < close then
      if close - timePointer ≥ taskDuration then
        [⟨timePointer, close, close - timePointer⟩]
      else []
    else []
  | e :: rest =>
    (if e.start > timePointer then
      if e.start - timePointer ≥ taskDuration then
        [⟨timePointer, e.start, e.start - timePointer⟩]
      else []
    else []) ++ sweepDay taskDuration (max timePointer e.stop) close rest

/-- One iteration of the day loop of `findAvailableTimeSlots` (the events
received here are already sorted chronologically): weekends produce
nothing; a day whose filtered event list is empty pushes the whole
working-hours span with duration `(17 - 9) * 60` (note: without comparing
it against `taskDuration`); otherwise the sweep runs. -/
def processDay (sortedEvents : List BusySlot) (taskDuration : Int) (d : Int) :
    List FreeSlot :=
  if isWeekend d then []
  else
    let eventsForDay := sortedEvents.filter
      (fun e => e.start ≤ dayClose d && dayOpen d ≤ e.stop)
    if eventsForDay.isEmpty then
      [⟨dayOpen d, dayClose d, (17 - 9) * 60⟩]
    else
      sweepDay taskDuration (dayOpen d) (dayClose d) eventsForDay

/-- The function `findAvailableTimeSlots(calendarEvents, taskDuration, startDate,
endDate)`: sort the events chronologically (`(a, b) => a.start - b.start`
is a stable ascending sort, modelled by insertion sort on `start`), then
scan day by day appending each day's free slots. -/
def findAvailableTimeSlots (calendarEvents : List BusySlot)
    (taskDuration : Int) (startDate endDate : Int) : List FreeSlot :=
  let sortedEvents :=
    calendarEvents.insertionSort (fun a b => a.start ≤ b.start)
  (dayList startDate endDate).flatMap (processDay sortedEvents taskDuration)

/-! ## Calendar reconciliation layer (`TaskCalendar`) -/

/-- A stored calendar position `{start, end}` (ISO strings in the source,
parsed here to minute timestamps). -/
structure Pos where
  start : Int
  stop : Int
  deriving Repr, DecidableEq

/-- A position map: a JavaScript object keyed by task id
(`Record<string, {start, end}>`); assignment overwrites, `map[id]` looks
up. -/
abbrev PosMap := List (String × Pos)

/-- JavaScript `acc[id] = pos` on an object: overwrite an existing binding
in place or append a new one. -/
def upsert (m : PosMap) (id : String) (p : Pos) : PosMap :=
  match m with
  | [] => [(id, p)]
  | (k, v) :: rest =>
    if k = id then (k, p) :: rest else (k, v) :: upsert rest id p

/-- A task record as the calendar component receives it (dates already
parsed; `none` models an absent field). -/
structure TaskRec where
  id : String
  title : String
  priority : String
  startDate : Option Int
  dueDate : Option Int
  deriving Repr, DecidableEq

/-- A `CalendarEvent` as built by `TaskCalendar`. -/
structure CalEvent where
  id : String
  title : String
  start : Int
  stop : Int
  allDay : Bool
  priority : String
  deriving Repr, DecidableEq

/-- The value `startOfDay(new Date())` at minute timestamp `now`. -/
def startOfDay (now : Int) : Int := now.fdiv minutesPerDay * minutesPerDay

/-- The event construction shared by all three load branches of
`TaskCalendar`: a stored position is used verbatim, otherwise the task's
canonical dates (start defaulting to the start of today, end to
start + 1 hour); a degenerate end (`end <= start`) is extended to
`start + 1 hour`.  (The `isNaN` repair of unparseable date strings is not
modelled: positions here are already numeric timestamps.) -/
def buildEvent (now : Int) (task : TaskRec) (storedPosition : Option Pos) :
    CalEvent :=
  let start := match storedPosition with
    | some p => p.start
    | none => task.startDate.getD (startOfDay now)
  let stop := match storedPosition with
    | some p => p.stop
    | none => task.dueDate.getD (start + 60)
  let stop := if stop ≤ start then start + 60 else stop
  ⟨task.id, task.title, start, stop, false, task.priority⟩

/-- The sort `newEvents.sort((a, b) => a.start.getTime() - b.start.getTime())`: a
stable ascending sort on `start`, modelled by insertion sort. -/
def sortEvents (evs : List CalEvent) : List CalEvent :=
  evs.insertionSort (fun a b => a.start ≤ b.start)

/-- The load effect of `TaskCalendar` (the `useEffect` over `tasks`): with
no tasks the event state is left empty; otherwise the in-memory
`globalTaskPositions` map wins whenever it is nonempty; else a fresh
localStorage snapshot — strictly younger than one day — wins; else events
are built from canonical task data.  (The writes back into
`globalTaskPositions` and localStorage do not affect the produced event
list and are not modelled.) -/
def loadEvents (now : Int) (tasks : List TaskRec)
    (globalTaskPositions : PosMap) (localStore : Option (PosMap × Int)) :
    List CalEvent :=
  if tasks.isEmpty then []
  else if globalTaskPositions.isEmpty = false then
    sortEvents (tasks.map fun t =>
      buildEvent now t (globalTaskPositions.lookup t.id))
  else
    match localStore with
    | some (taskPositionMap, lastUpdate) =>
      if now - minutesPerDay < lastUpdate then
        sortEvents (tasks.map fun t =>
          buildEvent now t (taskPositionMap.lookup t.id))
      else
        sortEvents (tasks.map fun t => buildEvent now t none)
    | none => sortEvents (tasks.map fun t => buildEvent now t none)

/-- Toast notifications observed by the user. -/
inductive Toast where
  | success (msg : String)
  | error (msg : String)
  deriving Repr, DecidableEq

/-- The retry loop of `moveEvent` (part_010 lines 420-461):
`while (retries < maxRetries && !success)` with `maxRetries = 3`; a
success toast is shown only when the very first attempt succeeds
(`retries === 0`); when the retry counter reaches 3 a single error toast
is shown and the loop exits without touching the event state.  `respOk n`
says whether the `n`-th PATCH attempt succeeds; `fuel` bounds the
recursion (the loop runs at most `3 - retries` more iterations, so fuel 3
from `retries = 0` is exact). -/
def attemptLoop (respOk : Nat → Bool) : Nat → Nat → Bool × List Toast
  | _, 0 => (false, [])
  | retries, fuel + 1 =>
    if respOk retries then
      (true, if retries = 0 then [.success "Task updated successfully"] else [])
    else if retries + 1 ≥ 3 then
      (false,
        [.error "Failed to update task in database, but your changes are saved locally"])
    else
      attemptLoop respOk (retries + 1) fuel

/-- The calendar state read and written by `moveEvent`. -/
structure CalendarState where
  myEvents : List CalEvent
  localPositions : PosMap
  localTimestamp : Option Int
  toasts : List Toast
  deriving Repr, DecidableEq

/-- The handler `moveEvent` (part_010 lines 380-467): optimistically replace the
dragged event's position (the event is filtered out and re-appended with
the new dates), rebuild the localStorage position map from the updated
event list with a fresh timestamp, then run the PATCH retry loop; whatever
the loop's outcome, the optimistic event list and local positions are
kept. -/
def moveEvent (st : CalendarState) (event : CalEvent) (start stop : Int)
    (droppedOnAllDaySlot : Bool) (respOk : Nat → Bool) (now : Int) :
    CalendarState :=
  let updatedEvent : CalEvent :=
    { event with start := start, stop := stop, allDay := droppedOnAllDaySlot }
  let updatedEvents :=
    (st.myEvents.filter fun ev => ev.id != event.id) ++ [updatedEvent]
  let taskPositionMap := updatedEvents.foldl
    (fun acc ev => upsert acc ev.id ⟨ev.start, ev.stop⟩) []
  let result := attemptLoop respOk 0 3
  { myEvents := updatedEvents
    localPositions := taskPositionMap
    localTimestamp := some now
    toasts := st.toasts ++ result.2 }

/-! ## Task API routes -/

/-- Outcome of an API route: an error response with HTTP status and
message, or a success payload. -/
inductive ApiResult (α : Type) where
  | ok (value : α)
  | error (status : Nat) (message : String)
  deriving Repr, DecidableEq

/-- A stored task document (only the fields the routes touch and the
claims inspect are modelled; the Mongoose schema declares `startDate` and
`dueDate` as plain optional `Date` fields with no validators). -/
structure TaskDoc where
  id : String
  userId : String
  status : String
  startDate : Option Int
  dueDate : Option Int
  isAllDay : Bool
  updatedAt : Int
  deriving Repr, DecidableEq

/-- A task as sent in the `tasks` array of `POST /api/tasks`. -/
structure TaskIn where
  id : Option String
  status : Option String
  startDate : Option Int
  dueDate : Option Int
  isAllDay : Option Bool
  deriving Repr, DecidableEq

/-- The `tasksWithUser` mapping of `POST /api/tasks` (part_001 lines
85-110): spread the incoming task, set `userId`, default `id`
(`task.id || crypto.randomUUID()`) and `status` (`task.status || 'todo'`);
dates pass through without any validation; `isAllDay` defaults per the
schema; `updatedAt` defaults to now. -/
def taskWithUser (userId freshId : String) (now : Int) (t : TaskIn) :
    TaskDoc :=
  { id := t.id.getD freshId
    userId := userId
    status := t.status.getD "todo"
    startDate := t.startDate
    dueDate := t.dueDate
    isAllDay := t.isAllDay.getD true
    updatedAt := now }

/-- Route `POST /api/tasks`: 401 without a user; 400 unless the body carries a
`tasks` array; otherwise every task is mapped by `taskWithUser` and
inserted as-is — no date-order check occurs anywhere on this path. -/
def createTasksRoute (user : Option String) (body : Option (List TaskIn))
    (freshIds : Nat → String) (now : Int) (store : List TaskDoc) :
    ApiResult (List TaskDoc) × List TaskDoc :=
  match user with
  | none => (.error 401 "Unauthorized", store)
  | some uid =>
    match body with
    | none => (.error 400 "Tasks array is required", store)
    | some tasks =>
      let tasksWithUser :=
        tasks.enum.map fun p => taskWithUser uid (freshIds p.1) now p.2
      (.ok tasksWithUser, store ++ tasksWithUser)

/-- A date field in a PATCH body: absent (or falsy), present but
unparseable (`new Date(x)` gives `NaN`), or a valid timestamp. -/
inductive DateField where
  | invalid
  | valid (t : Int)
  deriving Repr, DecidableEq

/-- The JSON body of `PATCH /api/tasks/[id]`. -/
structure PatchBody where
  status : Option String
  startDate : Option DateField
  dueDate : Option DateField
  isAllDay : Option Bool
  deriving Repr, DecidableEq

/-- The validation block of `PATCH /api/tasks/[id]` (route lines 22-47):
runs only when at least one date field is supplied; rejects an
unparseable start date, then an unparseable due date, and rejects on date
order — `startDate > dueDate` — only when both fields are supplied. -/
def validatePatch (body : PatchBody) : Option String :=
  if body.startDate.isSome || body.dueDate.isSome then
    match body.startDate with
    | some .invalid => some "Invalid start date format"
    | _ =>
      match body.dueDate with
      | some .invalid => some "Invalid due date format"
      | _ =>
        match body.startDate, body.dueDate with
        | some (.valid s), some (.valid d) =>
          if d < s then some "Start date cannot be after due date" else none
        | _, _ => none
  else none

/-- The `updateData` object built and applied by the PATCH route: status,
the supplied (valid) dates and `isAllDay` when present, plus a fresh
`updatedAt`. -/
def applyPatch (body : PatchBody) (now : Int) (t : TaskDoc) : TaskDoc :=
  { t with
    status := body.status.getD t.status
    startDate := match body.startDate with
      | some (.valid s) => some s
      | _ => t.startDate
    dueDate := match body.dueDate with
      | some (.valid d) => some d
      | _ => t.dueDate
    isAllDay := body.isAllDay.getD t.isAllDay
    updatedAt := now }

/-- Mongoose `findOneAndUpdate(filter, update, {new: true})` on the task
collection: update the first matching document, returning the updated
document and the new collection; `none` when nothing matches. -/
def findOneAndUpdate (pred : TaskDoc → Bool) (upd : TaskDoc → TaskDoc) :
    List TaskDoc → Option (TaskDoc × List TaskDoc)
  | [] => none
  | t :: ts =>
    if pred t then some (upd t, upd t :: ts)
    else (findOneAndUpdate pred upd ts).map fun r => (r.1, t :: r.2)

/-- Mongoose `findOneAndDelete(filter)`: remove the first matching
document. -/
def findOneAndDelete (pred : TaskDoc → Bool) :
    List TaskDoc → Option (TaskDoc × List TaskDoc)
  | [] => none
  | t :: ts =>
    if pred t then some (t, ts)
    else (findOneAndDelete pred ts).map fun r => (r.1, t :: r.2)

/-- Route `PATCH /api/tasks/[id]`: 401 without a user; a 400 validation error
before any store access; then `findOneAndUpdate({id, userId: user.id})` —
404 with the store untouched when no task of the requesting user has that
id. -/
def patchRoute (user : Option String) (id : String) (body : PatchBody)
    (now : Int) (store : List TaskDoc) : ApiResult TaskDoc × List TaskDoc :=
  match user with
  | none => (.error 401 "Unauthorized", store)
  | some uid =>
    match validatePatch body with
    | some msg => (.error 400 msg, store)
    | none =>
      match findOneAndUpdate (fun t => t.id == id && t.userId == uid)
          (applyPatch body now) store with
      | none => (.error 404 "Task not found", store)
      | some r => (.ok r.1, r.2)

/-- Route `PUT /api/tasks` (part_001 lines 123-164): 401 without a user; 400
when the body carries no `id`; then
`findOneAndUpdate({id, userId}, {...updateData, updatedAt})` — the spread
of the remaining body fields is abstracted as a function on the stored
document — 404 with the store untouched when no task of the requesting
user has that id. -/
def putRoute (user : Option String) (bodyId : Option String)
    (updateData : TaskDoc → TaskDoc) (now : Int) (store : List TaskDoc) :
    ApiResult TaskDoc × List TaskDoc :=
  match user with
  | none => (.error 401 "Unauthorized", store)
  | some uid =>
    match bodyId with
    | none => (.error 400 "Task ID is required", store)
    | some id =>
      match findOneAndUpdate (fun t => t.id == id && t.userId == uid)
          (fun t => { updateData t with updatedAt := now }) store with
      | none => (.error 404 "Task not found", store)
      | some r => (.ok r.1, r.2)

/-- Route `DELETE /api/tasks` (part_001 lines 166-203): 401 without a user; 400
without an `id` query parameter; then
`findOneAndDelete({id, userId: user.id})` — 404 with the store untouched
when no task of the requesting user has that id. -/
def deleteRoute (user : Option String) (queryId : Option String)
    (store : List TaskDoc) : ApiResult Bool × List TaskDoc :=
  match user with
  | none => (.error 401 "Unauthorized", store)
  | some uid =>
    match queryId with
    | none => (.error 400 "Task ID is required", store)
    | some id =>
      match findOneAndDelete (fun t => t.id == id && t.userId == uid) store with
      | none => (.error 404 "Task not found", store)
      | some r => (.ok true, r.2)

/-! ## Kanban board drag handler (part_014) -/

/-- The body PATCHed by the kanban `onDragEnd` for a cross-column drag:
always the destination status; completion dates only on drags into
`done`. -/
structure DragUpdate where
  status : String
  startDate : Option Int
  dueDate : Option Int
  deriving Repr, DecidableEq

/-- The handler `onDragEnd` (part_014 lines 36-103): nothing is sent when source and
destination columns coincide; otherwise the destination status is always
sent, and for drags into `done` the completion interval comes from
(1) the calendar's in-memory position map on `window` when it holds the
task id, else (2) the localStorage position map when it holds the id,
else (3) the fallback `[now - 1h, now]`.  `none` for a map models both an
absent/unparseable store and server-side rendering. -/
def onDragEnd (source destination draggableId : String)
    (windowPositions storedPositions : Option PosMap) (now : Int) :
    Option DragUpdate :=
  if source == destination then none
  else if destination == "done" then
    let d1 : Option Int × Option Int :=
      match windowPositions.bind fun m => m.lookup draggableId with
      | some p => (some p.start, some p.stop)
      | none =>
        match storedPositions.bind fun m => m.lookup draggableId with
        | some p => (some p.start, some p.stop)
        | none => (none, none)
    let d2 := if d1.1.isNone || d1.2.isNone
      then (some (now - 60), some now) else d1
    some ⟨destination, d2.1, d2.2⟩
  else some ⟨destination, none, none⟩

/-! ## AI task-suggestion extraction (chat-history route) -/

/-- A task suggestion `{title, description, priority, category}` embedded
in an AI response. -/
structure TaskSugg where
  title : String
  description : String
  priority : String
  category : String
  deriving Repr, DecidableEq

/-- First occurrence of `pat` in `s`: `some (before, after)` with
`s = before ++ pat ++ after` at the leftmost match. -/
def findSub (pat : List Char) : List Char → Option (List Char × List Char)
  | [] => if pat.isEmpty then some ([], []) else none
  | c :: rest =>
    if pat.isPrefixOf (c :: rest) then
      some ([], (c :: rest).drop pat.length)
    else
      match findSub pat rest with
      | some r => some (c :: r.1, r.2)
      | none => none

/-- The regex match `content.match(/```json([\s\S]*?)```/)`: the text
between the first ` ```json ` marker and the next ` ``` ` after it,
together with the text before the match and after it. -/
def matchJsonBlock (content : List Char) :
    Option (List Char × List Char × List Char) :=
  match findSub ("```json".toList) content with
  | none => none
  | some r =>
    match findSub ("```".toList) r.2 with
    | none => none
    | some r' => some (r.1, r'.1, r'.2)

/-- JavaScript `String.prototype.trim`. -/
def trimChars (s : List Char) : List Char :=
  ((s.dropWhile Char.isWhitespace).reverse.dropWhile Char.isWhitespace).reverse

/-- One pass of the global replace
`content.replace(/```json[\s\S]*?```/g, '')`: each lazily-matched block is
removed and scanning resumes after it; the fuel bounds the number of
removals (each removal consumes at least the markers, so `s.length`
removals always suffice). -/
def stripJsonBlocksAux : Nat → List Char → List Char
  | 0, s => s
  | fuel + 1, s =>
    match matchJsonBlock s with
    | none => s
    | some r => r.1 ++ stripJsonBlocksAux fuel r.2.2

/-- The replace `content.replace(/```json[\s\S]*?```/g, '')`. -/
def stripJsonBlocks (s : List Char) : List Char :=
  stripJsonBlocksAux s.length s

/-- The `tasks.reduce` grouping by category of
`extractTasksAndFormatResponse`, preserving first-appearance order of
categories (JavaScript object key insertion order). -/
def addToGroup : List (String × List TaskSugg) → TaskSugg →
    List (String × List TaskSugg)
  | [], t => [(t.category, [t])]
  | (c, ts) :: rest, t =>
    if c == t.category then (c, ts ++ [t]) :: rest
    else (c, ts) :: addToGroup rest t

/-- Group the parsed suggestions by category. -/
def groupByCategory (tasks : List TaskSugg) : List (String × List TaskSugg) :=
  tasks.foldl addToGroup []

/-- One bullet line of the categorized summary. -/
def formatTask (t : TaskSugg) : String :=
  "• " ++ t.title ++ " (" ++ t.priority ++ " priority)\n  " ++ t.description

/-- One category section of the categorized summary. -/
def formatGroup (c : String) (ts : List TaskSugg) : String :=
  c ++ ":\n\n" ++ String.intercalate "\n\n" (ts.map formatTask)

/-- The function `extractTasksAndFormatResponse(content)` (chat-history route lines
90-142): find the first json code block — without one the content is
returned unchanged with no tasks; parse it (`JSON.parse` plus the
`Task[]` cast is the external `parse` parameter; `none` models any
parse/shape failure, which the source catches); a failure returns the
content with all json blocks stripped and trimmed, and no tasks; success
returns the categorized summary and the tasks.  The function is total:
no input makes it raise. -/
def extractTasksAndFormatResponse
    (parse : List Char → Option (List TaskSugg)) (content : List Char) :
    List Char × List TaskSugg :=
  match matchJsonBlock content with
  | none => (content, [])
  | some r =>
    match parse (trimChars r.2.1) with
    | none => (trimChars (stripJsonBlocks content), [])
    | some tasks =>
      ((("I\x27ve analyzed the content and organized the tasks by category:\n\n"
          ++ String.intercalate "\n\n"
            ((groupByCategory tasks).map fun g => formatGroup g.1 g.2)).toList),
        tasks)

/-- The file-upload route of `POST /api/chat-history` (lines 144-270)
after the AI reply `rawResponse` arrives: extract tasks; when none were
extracted the route answers 400 "No tasks were found in the AI response";
otherwise it succeeds with the formatted response and tasks. -/
def uploadRouteOutcome (parse : List Char → Option (List TaskSugg))
    (rawResponse : List Char) : ApiResult (List Char × List TaskSugg) :=
  let r := extractTasksAndFormatResponse parse rawResponse
  if r.2.isEmpty then .error 400 "No tasks were found in the AI response"
  else .ok r

/-! ## Theorems -/

instance : IsTotal BusySlot (fun a b => a.start ≤ b.start) :=
  ⟨fun a b => Int.le_total a.start b.start⟩

instance : IsTrans BusySlot (fun a b => a.start ≤ b.start) :=
  ⟨fun _ _ _ h h' => le_trans h h'⟩

/-- Invariant of the inner sweep: every emitted slot starts at or after the
pointer, is a nonempty subinterval of `[pointer, close]`, records its exact
length as duration, meets the requested duration, and is disjoint from
every event of the sorted list being swept. -/
theorem sweepDay_spec (taskDuration close : Int) (evs : List BusySlot) :
    ∀ (p : Int),
      (∀ e ∈ evs, e.start ≤ close) →
      List.Pairwise (fun a b => a.start ≤ b.start) evs →
      ∀ s ∈ sweepDay taskDuration p close evs,
        p ≤ s.start ∧ s.start < s.stop ∧ s.stop ≤ close ∧
        s.duration = s.stop - s.start ∧ taskDuration ≤ s.duration ∧
        ∀ e ∈ evs, e.stop ≤ s.start ∨ s.stop ≤ e.start := by
  induction evs with
  | nil =>
    intro p _ _ s hs
    simp only [sweepDay] at hs
    split at hs
    case isFalse => simp at hs
    split at hs
    case isFalse => simp at hs
    rename_i hpc hd
    simp only [List.mem_singleton] at hs
    subst hs
    exact ⟨le_refl _, hpc, le_refl _, rfl, hd, by simp⟩
  | cons e rest ih =>
    intro p hcl hpw s hs
    simp only [sweepDay] at hs
    rw [List.mem_append] at hs
    have hec : e.start ≤ close := hcl e (by simp)
    have hcl' : ∀ e' ∈ rest, e'.start ≤ close :=
      fun e' h' => hcl e' (by simp [h'])
    have hle : ∀ e' ∈ rest, e.start ≤ e'.start := (List.pairwise_cons.mp hpw).1
    have hpw' := (List.pairwise_cons.mp hpw).2
    cases hs with
    | inl hgap =>
      split at hgap
      case isFalse => simp at hgap
      split at hgap
      case isFalse => simp at hgap
      rename_i hgt hd
      simp only [List.mem_singleton] at hgap
      subst hgap
      refine ⟨le_refl _, hgt, hec, rfl, hd, ?_⟩
      intro e' he'
      rcases List.mem_cons.mp he' with rfl | hm
      · exact Or.inr (le_refl _)
      · exact Or.inr (hle e' hm)
    | inr hrec =>
      obtain ⟨h1, h2, h3, h4, h5, h6⟩ := ih (max p e.stop) hcl' hpw' s hrec
      refine ⟨le_trans (le_max_left _ _) h1, h2, h3, h4, h5, ?_⟩
      intro e' he'
      rcases List.mem_cons.mp he' with rfl | hm
      · exact Or.inl (le_trans (le_max_right _ _) h1)
      · exact h6 e' hm

/-- Invariant of one day iteration: slots appear only on non-weekend days,
lie inside that day's working hours, are nonempty, meet the requested
duration unless they are the unconditional whole-day slot (480 minutes),
and are disjoint from every event of the sorted input. -/
theorem processDay_spec (sortedEvents : List BusySlot) (taskDuration d : Int)
    (hpw : List.Pairwise (fun a b => a.start ≤ b.start) sortedEvents) :
    ∀ s ∈ processDay sortedEvents taskDuration d,
      isWeekend d = false ∧
      dayOpen d ≤ s.start ∧ s.start < s.stop ∧ s.stop ≤ dayClose d ∧
      (taskDuration ≤ s.duration ∨ s.duration = (17 - 9) * 60) ∧
      ∀ e ∈ sortedEvents, e.stop ≤ s.start ∨ s.stop ≤ e.start := by
  intro s hs
  unfold processDay at hs
  split at hs
  case isTrue => simp at hs
  case isFalse hw =>
    have hw' : isWeekend d = false := by simpa using hw
    have hoc : dayOpen d + 480 = dayClose d := by
      simp only [dayOpen, dayClose, workStartMin, workEndMin]; ring
    dsimp only at hs
    split at hs
    case isTrue hempty =>
      rw [List.isEmpty_iff] at hempty
      simp only [List.mem_singleton] at hs
      subst hs
      refine ⟨hw', le_refl _, by show dayOpen d < dayClose d; omega,
        le_refl _, Or.inr rfl, ?_⟩
      intro e he
      have hnot : ¬(e.start ≤ dayClose d ∧ dayOpen d ≤ e.stop) := by
        intro ⟨ha, hb⟩
        have : e ∈ sortedEvents.filter
            (fun e => e.start ≤ dayClose d && dayOpen d ≤ e.stop) := by
          rw [List.mem_filter]
          exact ⟨he, by simp [ha, hb]⟩
        simp [hempty] at this
      push_neg at hnot
      rcases le_or_lt e.start (dayClose d) with ha | ha
      · exact Or.inl (le_of_lt (hnot ha))
      · exact Or.inr (le_of_lt ha)
    case isFalse =>
      have hcl : ∀ e ∈ sortedEvents.filter
          (fun e => e.start ≤ dayClose d && dayOpen d ≤ e.stop),
          e.start ≤ dayClose d := by
        intro e he
        rw [List.mem_filter] at he
        have h2 := he.2
        simp only [Bool.and_eq_true, decide_eq_true_eq] at h2
        exact h2.1
      have hpwf : List.Pairwise (fun a b : BusySlot => a.start ≤ b.start)
          (sortedEvents.filter
            (fun e => e.start ≤ dayClose d && dayOpen d ≤ e.stop)) :=
        List.Pairwise.sublist (List.filter_sublist _) hpw
      obtain ⟨h1, h2, h3, h4, h5, h6⟩ :=
        sweepDay_spec taskDuration (dayClose d) _ (dayOpen d) hcl hpwf s hs
      refine ⟨hw', h1, h2, h3, Or.inl h5, ?_⟩
      intro e he
      by_cases hin : e.start ≤ dayClose d ∧ dayOpen d ≤ e.stop
      · exact h6 e (by rw [List.mem_filter]; exact ⟨he, by simp [hin.1, hin.2]⟩)
      · push_neg at hin
        rcases le_or_lt e.start (dayClose d) with ha | ha
        · exact Or.inl (le_trans (le_of_lt (hin ha)) h1)
        · exact Or.inr (le_trans h3 (le_of_lt ha))

/-- Master property of the slot finder: every returned slot belongs to some
non-weekend day's working hours, has duration equal to its length, meets
the requested duration unless it is a whole-day slot, and is disjoint from
every input busy slot. -/
theorem findAvailableTimeSlots_spec (calendarEvents : List BusySlot)
    (taskDuration startDate endDate : Int) :
    ∀ s ∈ findAvailableTimeSlots calendarEvents taskDuration startDate endDate,
      ∃ d : Int, isWeekend d = false ∧
        dayOpen d ≤ s.start ∧ s.start < s.stop ∧ s.stop ≤ dayClose d ∧
        (taskDuration ≤ s.duration ∨ s.duration = (17 - 9) * 60) ∧
        ∀ e ∈ calendarEvents, e.stop ≤ s.start ∨ s.stop ≤ e.start := by
  intro s hs
  unfold findAvailableTimeSlots at hs
  rw [List.mem_flatMap] at hs
  obtain ⟨d, _, hmem⟩ := hs
  have hpw : List.Pairwise (fun a b : BusySlot => a.start ≤ b.start)
      (calendarEvents.insertionSort fun a b => a.start ≤ b.start) :=
    List.sorted_insertionSort (fun a b : BusySlot => a.start ≤ b.start)
      calendarEvents
  obtain ⟨hw, h1, h2, h3, h4, h5⟩ := processDay_spec _ taskDuration d hpw s hmem
  refine ⟨d, hw, h1, h2, h3, h4, ?_⟩
  intro e he
  exact h5 e ((List.perm_insertionSort
    (fun a b : BusySlot => a.start ≤ b.start) calendarEvents).symm.subset he)

/-- C1 (counterexample): the claim "every FreeSlot in the returned sequence
has duration at least D" fails.  With no busy slots and requested duration
D = 481 over one business day, the empty-day branch emits the whole
480-minute working span without comparing it against D, so a slot of
duration 480 < 481 is returned. -/
theorem C1_duration_counterexample :
    ¬ (∀ s ∈ findAvailableTimeSlots [] 481 0 1440, 481 ≤ s.duration) := by
  decide

/-- C1 (amended): every returned FreeSlot has duration at least the
requested duration D, except possibly a whole-day slot emitted by the
zero-busy-slot branch, whose duration is always the full working span of
(17 - 9) * 60 = 480 minutes regardless of D; consequently, whenever
D ≤ 480, every returned slot has duration at least D. -/
theorem C1_duration_amended (busy : List BusySlot) (dur ws we : Int) :
    (∀ s ∈ findAvailableTimeSlots busy dur ws we,
      dur ≤ s.duration ∨ s.duration = (17 - 9) * 60) ∧
    (dur ≤ 480 →
      ∀ s ∈ findAvailableTimeSlots busy dur ws we, dur ≤ s.duration) := by
  constructor
  · intro s hs
    obtain ⟨d, _, _, _, _, h4, _⟩ := findAvailableTimeSlots_spec busy dur ws we s hs
    exact h4
  · intro hle s hs
    obtain ⟨d, _, _, _, _, h4, _⟩ := findAvailableTimeSlots_spec busy dur ws we s hs
    rcases h4 with h | h
    · exact h
    · omega

/-- C1 (witness): the amended theorem applied on a single business day with
one busy slot `[10:00, 11:00)` and duration 60: the gap `[09:00, 10:00)`
is returned and has duration at least 60. -/
theorem C1_duration_witness :
    (60 : Int) ≤ (⟨540, 600, 60⟩ : FreeSlot).duration ∨
      (⟨540, 600, 60⟩ : FreeSlot).duration = (17 - 9) * 60 :=
  (C1_duration_amended [⟨600, 660⟩] 60 0 1440).1 ⟨540, 600, 60⟩ (by decide)

/-- C2: for every busy-slot list — including overlapping busy intervals and
intervals fully containing others — no returned FreeSlot overlaps any
input busy slot (the `max` pointer advance merges overlapping busy
intervals): intervals being half-open, slot `s` and busy `b` are disjoint
when `b.end ≤ s.start` or `s.end ≤ b.start`. -/
theorem C2_no_busy_overlap (busy : List BusySlot) (dur ws we : Int) :
    ∀ s ∈ findAvailableTimeSlots busy dur ws we,
      ∀ b ∈ busy, b.stop ≤ s.start ∨ s.stop ≤ b.start := by
  intro s hs b hb
  obtain ⟨d, _, _, _, _, _, h5⟩ := findAvailableTimeSlots_spec busy dur ws we s hs
  exact h5 b hb

/-- C2 (witness): the claim's own scenario — overlapping busy slots
`[10:00, 11:00)` and `[10:30, 12:00)` on a single day, duration 60.  The
merged busy span `[10:00, 12:00)` is respected: the output is exactly the
gaps `[09:00, 10:00)` and `[12:00, 17:00)`, so `[11:00, 11:30)` is not
reported free; the main theorem applies to the gap `[09:00, 10:00)` and
the busy slot `[10:30, 12:00)`. -/
theorem C2_no_busy_overlap_witness :
    (findAvailableTimeSlots [⟨600, 660⟩, ⟨630, 720⟩] 60 0 1440 =
      [⟨540, 600, 60⟩, ⟨720, 1020, 300⟩]) ∧
    ((720 : Int) ≤ 540 ∨ (600 : Int) ≤ 630) :=
  ⟨by decide,
    C2_no_busy_overlap [⟨600, 660⟩, ⟨630, 720⟩] 60 0 1440
      ⟨540, 600, 60⟩ (by decide) ⟨630, 720⟩ (by decide)⟩

/-- C3: every returned FreeSlot lies entirely within `[09:00, 17:00)` of a
single non-weekend day; consequently, for any Saturday day index, no
returned slot intersects that Saturday or the following Sunday — in
particular with `windowStart` on a Saturday the output has no interval on
that weekend. -/
theorem C3_working_hours_weekdays (busy : List BusySlot) (dur ws we : Int) :
    (∀ s ∈ findAvailableTimeSlots busy dur ws we,
      ∃ d : Int, isWeekend d = false ∧
        dayOpen d ≤ s.start ∧ s.start < s.stop ∧ s.stop ≤ dayClose d) ∧
    (∀ satD : Int, dayOfWeek satD = 6 →
      ∀ s ∈ findAvailableTimeSlots busy dur ws we,
        s.stop ≤ satD * minutesPerDay ∨
          (satD + 2) * minutesPerDay ≤ s.start) := by
  constructor
  · intro s hs
    obtain ⟨d, hw, h1, h2, h3, _, _⟩ :=
      findAvailableTimeSlots_spec busy dur ws we s hs
    exact ⟨d, hw, h1, h2, h3⟩
  · intro satD hsat s hs
    obtain ⟨d, hw, h1, h2, h3, _, _⟩ :=
      findAvailableTimeSlots_spec busy dur ws we s hs
    have hw0 : dayOfWeek d ≠ 0 ∧ dayOfWeek d ≠ 6 := by
      constructor <;> intro h <;> simp [isWeekend, h] at hw
    have hne1 : d ≠ satD := fun h => hw0.2 (h ▸ hsat)
    have hne2 : d ≠ satD + 1 := by
      intro h
      apply hw0.1
      subst h
      unfold dayOfWeek at hsat ⊢
      omega
    have hopen : dayOpen d = d * 1440 + 540 := rfl
    have hclose : dayClose d = d * 1440 + 1020 := rfl
    have hmpd : minutesPerDay = 1440 := rfl
    rw [hmpd]
    rcases lt_trichotomy d satD with hlt | heq | hgt
    · left; omega
    · exact absurd heq hne1
    · right
      have : satD + 2 ≤ d := by omega
      omega

theorem lookup_upsert_self (m : PosMap) (k : String) (p : Pos) :
    (upsert m k p).lookup k = some p := by
  induction m with
  | nil => simp [upsert, List.lookup]
  | cons kv rest ih =>
    obtain ⟨k', v⟩ := kv
    by_cases h : k' = k
    · subst h
      simp [upsert, List.lookup]
    · rw [upsert, if_neg h, List.lookup]
      have hb : (k == k') = false := by simp [Ne.symm h]
      rw [hb]
      exact ih

theorem lookup_upsert_ne (m : PosMap) (k k' : String) (p : Pos)
    (h : k ≠ k') : (upsert m k' p).lookup k = m.lookup k := by
  induction m with
  | nil =>
    have hb : (k == k') = false := by simp [h]
    simp [upsert, List.lookup, hb]
  | cons kv rest ih =>
    obtain ⟨k₀, v⟩ := kv
    by_cases h0 : k₀ = k'
    · subst h0
      have hb : (k == k₀) = false := by simp [h]
      simp [upsert, List.lookup, hb]
    · rw [upsert, if_neg h0, List.lookup, List.lookup]
      cases hb : k == k₀ with
      | true => rfl
      | false => exact ih

theorem lookup_foldl_upsert_of_not_mem (k : String) (evs : List CalEvent) :
    ∀ m : PosMap, (∀ ev ∈ evs, ev.id ≠ k) →
      ((evs.foldl (fun acc ev => upsert acc ev.id ⟨ev.start, ev.stop⟩)
        m).lookup k) = m.lookup k := by
  induction evs with
  | nil => intro m _; rfl
  | cons ev rest ih =>
    intro m h
    rw [List.foldl_cons]
    rw [ih _ fun e he => h e (List.mem_cons_of_mem _ he)]
    exact lookup_upsert_ne m k ev.id _ fun he => h ev (by simp) he.symm

theorem mem_sortEvents {e : CalEvent} {l : List CalEvent} :
    e ∈ sortEvents l ↔ e ∈ l :=
  (List.perm_insertionSort _ l).mem_iff

/-- C4 (counterexample): the claim that after a drag whose persistence
fails on all 3 retry attempts the displayed event reverts to its
last-confirmed position is false: `moveEvent` deliberately keeps the
optimistic position ("Even if database update failed, we keep the UI
updated and localStorage saved").  Task `t1`, last-confirmed at
`[0, 60)`, is dragged to `[100, 160)` with every attempt failing: the
displayed list holds the optimistic position and the last-confirmed
position is gone. -/
theorem C4_revert_counterexample :
    ((moveEvent ⟨[⟨"t1", "T", 0, 60, false, "low"⟩], [], none, []⟩
        ⟨"t1", "T", 0, 60, false, "low"⟩ 100 160 false (fun _ => false)
        5000).myEvents = [⟨"t1", "T", 100, 160, false, "low"⟩]) ∧
    (⟨"t1", "T", 0, 60, false, "low"⟩ : CalEvent) ∉
      (moveEvent ⟨[⟨"t1", "T", 0, 60, false, "low"⟩], [], none, []⟩
        ⟨"t1", "T", 0, 60, false, "low"⟩ 100 160 false (fun _ => false)
        5000).myEvents := by
  constructor
  · rfl
  · decide

/-- C4 (amended): after a drag moves task T's event to `[S, E)` and the
backing store call fails on all 3 retry attempts, T's displayed event
KEEPS the optimistic position `[S, E)` (the last-confirmed position is
dropped from the displayed list), the position is saved to the local
cache, and exactly one user-visible error is recorded. -/
theorem C4_optimistic_kept (st : CalendarState) (event : CalEvent)
    (start stop : Int) (ad : Bool) (respOk : Nat → Bool) (now : Int)
    (hfail : ∀ n, respOk n = false) :
    (moveEvent st event start stop ad respOk now).myEvents =
      (st.myEvents.filter fun ev => ev.id != event.id) ++
        [{ event with start := start, stop := stop, allDay := ad }] ∧
    (moveEvent st event start stop ad respOk now).localPositions.lookup
      event.id = some ⟨start, stop⟩ ∧
    (moveEvent st event start stop ad respOk now).toasts = st.toasts ++
      [.error "Failed to update task in database, but your changes are saved locally"] := by
  refine ⟨rfl, ?_, ?_⟩
  · show (((st.myEvents.filter fun (ev : CalEvent) => ev.id != event.id) ++
      [{ event with start := start, stop := stop, allDay := ad }]).foldl
        (fun (acc : PosMap) (ev : CalEvent) =>
          upsert acc ev.id ⟨ev.start, ev.stop⟩) []).lookup
          event.id = some ⟨start, stop⟩
    rw [List.foldl_append]
    rw [List.foldl_cons, List.foldl_nil]
    exact lookup_upsert_self _ _ _
  · show st.toasts ++ (attemptLoop respOk 0 3).2 = _
    have h3 : attemptLoop respOk 0 3 =
        (false, [.error "Failed to update task in database, but your changes are saved locally"]) := by
      simp [attemptLoop, hfail 0, hfail 1, hfail 2]
    rw [h3]

/-- C4 (witness): the amended theorem at a concrete state — task `t1`
last-confirmed at `[0, 60)` dragged to `[100, 160)` with every PATCH
attempt failing. -/
theorem C4_optimistic_kept_witness :
    (moveEvent ⟨[⟨"t1", "T", 0, 60, false, "low"⟩], [], none, []⟩
        ⟨"t1", "T", 0, 60, false, "low"⟩ 100 160 false (fun _ => false)
        7000).myEvents =
      (([⟨"t1", "T", 0, 60, false, "low"⟩] :
          List CalEvent).filter fun ev => ev.id != "t1") ++
        [⟨"t1", "T", 100, 160, false, "low"⟩] ∧
    (moveEvent ⟨[⟨"t1", "T", 0, 60, false, "low"⟩], [], none, []⟩
        ⟨"t1", "T", 0, 60, false, "low"⟩ 100 160 false (fun _ => false)
        7000).localPositions.lookup "t1" = some ⟨100, 160⟩ ∧
    (moveEvent ⟨[⟨"t1", "T", 0, 60, false, "low"⟩], [], none, []⟩
        ⟨"t1", "T", 0, 60, false, "low"⟩ 100 160 false (fun _ => false)
        7000).toasts = [] ++
      [.error "Failed to update task in database, but your changes are saved locally"] :=
  C4_optimistic_kept ⟨[⟨"t1", "T", 0, 60, false, "low"⟩], [], none, []⟩
    ⟨"t1", "T", 0, 60, false, "low"⟩ 100 160 false (fun _ => false) 7000
    (fun _ => rfl)

/-- C5: on load, a task with both a cached local position and canonical
dates gets its displayed event from the cache — both for the in-memory
map (which wins whenever nonempty) and for a fresh localStorage snapshot
— regardless of the canonical `startDate`/`dueDate`; and a localStorage
snapshot at or beyond the one-day freshness window is discarded entirely:
the events are built from canonical data only. -/
theorem C5_cache_tie_break (now : Int) (tasks : List TaskRec)
    (globalPos : PosMap) (localStore : Option (PosMap × Int)) :
    (∀ t ∈ tasks, ∀ p : Pos, globalPos.isEmpty = false →
      globalPos.lookup t.id = some p → p.start < p.stop →
      (⟨t.id, t.title, p.start, p.stop, false, t.priority⟩ : CalEvent) ∈
        loadEvents now tasks globalPos localStore) ∧
    (∀ t ∈ tasks, ∀ (m : PosMap) (ts : Int) (p : Pos),
      globalPos.isEmpty = true → localStore = some (m, ts) →
      now - minutesPerDay < ts →
      m.lookup t.id = some p → p.start < p.stop →
      (⟨t.id, t.title, p.start, p.stop, false, t.priority⟩ : CalEvent) ∈
        loadEvents now tasks globalPos localStore) ∧
    (∀ (m : PosMap) (ts : Int),
      globalPos.isEmpty = true → localStore = some (m, ts) →
      ts ≤ now - minutesPerDay →
      loadEvents now tasks globalPos localStore =
        sortEvents (tasks.map fun t => buildEvent now t none)) := by
  have hbuild : ∀ (t : TaskRec) (p : Pos), p.start < p.stop →
      buildEvent now t (some p) =
        ⟨t.id, t.title, p.start, p.stop, false, t.priority⟩ := by
    intro t p hp
    simp [buildEvent, if_neg (not_le.mpr hp)]
  refine ⟨?_, ?_, ?_⟩
  · intro t ht p hne hlk hp
    have htne : tasks.isEmpty = false := by
      cases tasks
      · cases ht
      · rfl
    have heq : loadEvents now tasks globalPos localStore =
        sortEvents (tasks.map fun t =>
          buildEvent now t (globalPos.lookup t.id)) := by
      rw [loadEvents.eq_def, htne, hne]
      simp
    rw [heq, mem_sortEvents]
    exact List.mem_map.mpr ⟨t, ht, by rw [hlk, hbuild t p hp]⟩
  · intro t ht m ts p hge hls hfresh hlk hp
    have htne : tasks.isEmpty = false := by
      cases tasks
      · cases ht
      · rfl
    have heq : loadEvents now tasks globalPos localStore =
        sortEvents (tasks.map fun t =>
          buildEvent now t (m.lookup t.id)) := by
      rw [loadEvents.eq_def, htne, hge, hls]
      simp [hfresh]
    rw [heq, mem_sortEvents]
    exact List.mem_map.mpr ⟨t, ht, by rw [hlk, hbuild t p hp]⟩
  · intro m ts hge hls hstale
    cases htasks : tasks.isEmpty with
    | true =>
      have : tasks = [] := List.isEmpty_iff.mp htasks
      subst this
      rfl
    | false =>
      rw [loadEvents.eq_def, htasks, hge, hls]
      simp [show ¬(now - minutesPerDay < ts) by omega]

/-- C5 (witness): the tie-break at a concrete load — task `t1` has
canonical dates `[0, 60)` but the in-memory cache holds `[100, 160)`; the
displayed event uses the cached position. -/
theorem C5_cache_tie_break_witness :
    (⟨"t1", "T", 100, 160, false, "low"⟩ : CalEvent) ∈
      loadEvents 5000 [⟨"t1", "T", "low", some 0, some 60⟩]
        [("t1", ⟨100, 160⟩)] none :=
  (C5_cache_tie_break 5000 [⟨"t1", "T", "low", some 0, some 60⟩]
      [("t1", ⟨100, 160⟩)] none).1
    ⟨"t1", "T", "low", some 0, some 60⟩ (by decide) ⟨100, 160⟩ rfl rfl
    (by decide)

/-- C6 (counterexample): the claim that a task write with
`dueDate < startDate` is either rejected or auto-corrected to
`startDate + 1h` is false for the create operation: `POST /api/tasks`
performs no date validation and the schema has none, so a task with
`startDate` 09:00 and `dueDate` 08:00 is stored verbatim and the request
succeeds. -/
theorem C6_invariant_counterexample :
    (createTasksRoute (some "u")
        (some [⟨some "t1", none, some 540, some 480, none⟩])
        (fun _ => "fresh") 0 []).2 =
      [⟨"t1", "u", "todo", some 540, some 480, true, 0⟩] ∧
    (createTasksRoute (some "u")
        (some [⟨some "t1", none, some 540, some 480, none⟩])
        (fun _ => "fresh") 0 []).1 =
      .ok [⟨"t1", "u", "todo", some 540, some 480, true, 0⟩] := by
  constructor
  · rfl
  · rfl

/-- C6 (amended): the `startDate ≤ dueDate` invariant is not enforced on
the stored task: the create operation stores every submitted date pair
unchanged (neither rejection nor correction).  It is enforced only for
the task as displayed: calendar event construction extends a degenerate
end (`dueDate ≤ startDate`) to `startDate + 1 hour`. -/
theorem C6_invariant_amended :
    (∀ (uid : String) (tasks : List TaskIn) (freshIds : Nat → String)
      (now : Int) (store : List TaskDoc), ∀ t ∈ tasks,
      ∃ doc ∈ (createTasksRoute (some uid) (some tasks) freshIds now
        store).2, doc.startDate = t.startDate ∧ doc.dueDate = t.dueDate) ∧
    (∀ (now : Int) (t : TaskRec) (s d : Int), t.startDate = some s →
      t.dueDate = some d → d ≤ s →
      buildEvent now t none = ⟨t.id, t.title, s, s + 60, false, t.priority⟩) := by
  constructor
  · intro uid tasks freshIds now store t ht
    obtain ⟨i, hi, rfl⟩ := List.mem_iff_getElem.mp ht
    refine ⟨taskWithUser uid (freshIds i) now tasks[i], ?_, rfl, rfl⟩
    show _ ∈ store ++ _
    refine List.mem_append_right _ ?_
    refine List.mem_map.mpr ⟨(i, tasks[i]), ?_, rfl⟩
    have hlen : i < tasks.enum.length := by
      simpa [List.enum_length] using hi
    have hget : tasks.enum[i] = (i, tasks[i]) := List.getElem_enum ..
    exact hget ▸ List.getElem_mem hlen
  · intro now t s d hs hd hds
    simp [buildEvent, hs, hd, if_pos hds]

/-- C6 (witness): the amended theorem on the counterexample's input: the
violating pair is stored unchanged, and the display-side correction
yields `end = start + 1h`. -/
theorem C6_invariant_amended_witness :
    (∃ doc ∈ (createTasksRoute (some "u")
        (some [⟨some "t1", none, some 540, some 480, none⟩])
        (fun _ => "fresh") 0 []).2,
      doc.startDate = some 540 ∧ doc.dueDate = some 480) ∧
    buildEvent 0 ⟨"t1", "T", "low", some 540, some 480⟩ none =
      ⟨"t1", "T", 540, 600, false, "low"⟩ :=
  ⟨C6_invariant_amended.1 "u" [⟨some "t1", none, some 540, some 480, none⟩]
      (fun _ => "fresh") 0 [] ⟨some "t1", none, some 540, some 480, none⟩
      (by decide),
    C6_invariant_amended.2 0 ⟨"t1", "T", "low", some 540, some 480⟩ 540 480
      rfl rfl (by decide)⟩

/-- C7: the PATCH route rejects on date order — with the 400 error
`"Start date cannot be after due date"`, before any store access and
leaving the store unchanged — exactly when both date fields are supplied
in the patch body (as valid dates) and the patched start is strictly
after the patched due date; a patch supplying only one of the two dates
is never rejected on date-order grounds. -/
theorem C7_patch_order_validation (body : PatchBody) :
    (validatePatch body = some "Start date cannot be after due date" ↔
      ∃ s d : Int, body.startDate = some (.valid s) ∧
        body.dueDate = some (.valid d) ∧ d < s) ∧
    (∀ (uid id : String) (now : Int) (store : List TaskDoc) (msg : String),
      validatePatch body = some msg →
      patchRoute (some uid) id body now store = (.error 400 msg, store)) := by
  constructor
  · obtain ⟨status, startDate, dueDate, isAllDay⟩ := body
    constructor
    · intro h
      rcases startDate with _ | sf
      · rcases dueDate with _ | df
        · simp [validatePatch] at h
        · rcases df with _ | d <;> simp [validatePatch] at h
      · rcases sf with _ | s
        · simp [validatePatch] at h
        · rcases dueDate with _ | df
          · simp [validatePatch] at h
          · rcases df with _ | d
            · simp [validatePatch] at h
            · by_cases hds : d < s
              · exact ⟨s, d, rfl, rfl, hds⟩
              · simp [validatePatch, hds] at h
    · rintro ⟨s, d, hs, hd, hds⟩
      subst hs
      subst hd
      simp [validatePatch, hds]
  · intro uid id now store msg h
    simp [patchRoute, h]

/-- C7 (witness): a patch body carrying `startDate` 09:00 and `dueDate`
08:00 is rejected with the date-order 400 before the (empty) store is
touched. -/
theorem C7_patch_order_validation_witness :
    patchRoute (some "u") "t1"
        ⟨none, some (.valid 540), some (.valid 480), none⟩ 0 [] =
      (.error 400 "Start date cannot be after due date", []) :=
  (C7_patch_order_validation
      ⟨none, some (.valid 540), some (.valid 480), none⟩).2
    "u" "t1" 0 [] "Start date cannot be after due date" rfl

theorem findOneAndUpdate_eq_none (pred : TaskDoc → Bool)
    (upd : TaskDoc → TaskDoc) :
    ∀ store : List TaskDoc, (∀ t ∈ store, pred t = false) →
      findOneAndUpdate pred upd store = none := by
  intro store
  induction store with
  | nil => intro _; rfl
  | cons t ts ih =>
    intro h
    rw [findOneAndUpdate, if_neg (by simp [h t (by simp)])]
    rw [ih fun t' ht' => h t' (List.mem_cons_of_mem _ ht')]
    rfl

theorem findOneAndDelete_eq_none (pred : TaskDoc → Bool) :
    ∀ store : List TaskDoc, (∀ t ∈ store, pred t = false) →
      findOneAndDelete pred store = none := by
  intro store
  induction store with
  | nil => intro _; rfl
  | cons t ts ih =>
    intro h
    rw [findOneAndDelete, if_neg (by simp [h t (by simp)])]
    rw [ih fun t' ht' => h t' (List.mem_cons_of_mem _ ht')]
    rfl

theorem ownership_pred_false (uid id : String) (t : TaskDoc)
    (h : ¬(t.id = id ∧ t.userId = uid)) :
    (t.id == id && t.userId == uid) = false := by
  by_cases h1 : t.id = id
  · have h2 : t.userId ≠ uid := fun h2 => h ⟨h1, h2⟩
    simp [h1, h2]
  · simp [h1]

/-- C10: every task mutation is scoped to the authenticated user: when no
task with the given id is owned by the requesting user — including when a
task with that id belongs to a different user — PATCH (with a body that
passes validation), PUT and DELETE all answer 404 "Task not found" and
leave the store unmodified. -/
theorem C10_user_scoping (uid id : String) (now : Int)
    (store : List TaskDoc)
    (h : ∀ t ∈ store, ¬(t.id = id ∧ t.userId = uid)) :
    (∀ body : PatchBody, validatePatch body = none →
      patchRoute (some uid) id body now store =
        (.error 404 "Task not found", store)) ∧
    (∀ updateData : TaskDoc → TaskDoc,
      putRoute (some uid) (some id) updateData now store =
        (.error 404 "Task not found", store)) ∧
    deleteRoute (some uid) (some id) store =
      (.error 404 "Task not found", store) := by
  have hpred : ∀ t ∈ store, (t.id == id && t.userId == uid) = false :=
    fun t ht => ownership_pred_false uid id t (h t ht)
  refine ⟨?_, ?_, ?_⟩
  · intro body hval
    simp [patchRoute, hval, findOneAndUpdate_eq_none _ _ store hpred]
  · intro updateData
    simp [putRoute, findOneAndUpdate_eq_none _ _ store hpred]
  · simp [deleteRoute, findOneAndDelete_eq_none _ store hpred]

/-- C10 (witness): a store holding task `t1` owned by a different user:
PATCH (empty body), PUT (identity update) and DELETE by user `u` all
answer 404 and leave the store unchanged. -/
theorem C10_user_scoping_witness :
    (patchRoute (some "u") "t1" ⟨none, none, none, none⟩ 9
        [⟨"t1", "other", "todo", none, none, true, 0⟩] =
      (.error 404 "Task not found",
        [⟨"t1", "other", "todo", none, none, true, 0⟩])) ∧
    (putRoute (some "u") (some "t1") (fun t => t) 9
        [⟨"t1", "other", "todo", none, none, true, 0⟩] =
      (.error 404 "Task not found",
        [⟨"t1", "other", "todo", none, none, true, 0⟩])) ∧
    deleteRoute (some "u") (some "t1")
        [⟨"t1", "other", "todo", none, none, true, 0⟩] =
      (.error 404 "Task not found",
        [⟨"t1", "other", "todo", none, none, true, 0⟩]) :=
  ⟨(C10_user_scoping "u" "t1" 9
      [⟨"t1", "other", "todo", none, none, true, 0⟩] (by decide)).1
      ⟨none, none, none, none⟩ rfl,
    (C10_user_scoping "u" "t1" 9
      [⟨"t1", "other", "todo", none, none, true, 0⟩] (by decide)).2.1
      (fun t => t),
    (C10_user_scoping "u" "t1" 9
      [⟨"t1", "other", "todo", none, none, true, 0⟩] (by decide)).2.2⟩

/-- C8: for a cross-column drag, the PATCH body always carries the
destination status; when the destination is the terminal column `done`
(and the drag carries no explicit timestamps — the handler never reads
any), the completion interval is resolved in priority order: (1) the
in-memory calendar position for the task id, else (2) the local-storage
cached position for the id, else (3) the fallback `[now - 1h, now]`;
drags to non-terminal columns send only the status change. -/
theorem C8_done_drag_resolution (source destination draggableId : String)
    (windowPositions storedPositions : Option PosMap) (now : Int)
    (hne : source ≠ destination) :
    (destination = "done" →
      (∀ p : Pos,
        (windowPositions.bind fun m => m.lookup draggableId) = some p →
        onDragEnd source destination draggableId windowPositions
          storedPositions now = some ⟨"done", some p.start, some p.stop⟩) ∧
      ((windowPositions.bind fun m => m.lookup draggableId) = none →
        ∀ p : Pos,
        (storedPositions.bind fun m => m.lookup draggableId) = some p →
        onDragEnd source destination draggableId windowPositions
          storedPositions now = some ⟨"done", some p.start, some p.stop⟩) ∧
      ((windowPositions.bind fun m => m.lookup draggableId) = none →
        (storedPositions.bind fun m => m.lookup draggableId) = none →
        onDragEnd source destination draggableId windowPositions
          storedPositions now = some ⟨"done", some (now - 60), some now⟩)) ∧
    (destination ≠ "done" →
      onDragEnd source destination draggableId windowPositions
        storedPositions now = some ⟨destination, none, none⟩) := by
  have hsb : (source == destination) = false := by simp [hne]
  constructor
  · intro hdone
    subst hdone
    refine ⟨?_, ?_, ?_⟩
    · intro p hp
      simp [onDragEnd, hsb, hp]
    · intro hm p hp
      simp [onDragEnd, hsb, hm, hp]
    · intro hm hs
      simp [onDragEnd, hsb, hm, hs]
  · intro hnd
    have hdb : (destination == "done") = false := by simp [hnd]
    simp [onDragEnd, hsb, hdb]

/-- C8 (witness): a drag of `t1` from `todo` into `done` with the
in-memory map empty and the cache holding `[100, 160)`: the cached
position is sent with the status change. -/
theorem C8_done_drag_resolution_witness :
    onDragEnd "todo" "done" "t1" (some []) (some [("t1", ⟨100, 160⟩)])
      5000 = some ⟨"done", some 100, some 160⟩ :=
  ((C8_done_drag_resolution "todo" "done" "t1" (some [])
      (some [("t1", ⟨100, 160⟩)]) 5000 (by decide)).1 rfl).2.1 rfl
    ⟨100, 160⟩ rfl

/-- C9 (counterexample): the claim that the surrounding chat/analysis
response never hard-fails is false: when the AI reply contains no JSON
code block, extraction degrades to an empty task list, and the
file-upload route then answers a 400 error "No tasks were found in the
AI response" instead of succeeding. -/
theorem C9_hard_fail_counterexample :
    uploadRouteOutcome (fun _ => none) ("hello".toList) =
      .error 400 "No tasks were found in the AI response" := by rfl

/-- C9 (amended): extraction itself never raises and degrades as
specified — content without a json code block is returned unchanged with
no tasks, and a block whose embedded JSON fails to parse yields the
content with all json blocks stripped and no tasks — but the surrounding
file-analysis response DOES hard-fail: whenever the extracted task list
is empty the upload route answers 400 "No tasks were found in the AI
response". -/
theorem C9_degrade_amended :
    (∀ (parse : List Char → Option (List TaskSugg)) (content : List Char),
      matchJsonBlock content = none →
      extractTasksAndFormatResponse parse content = (content, [])) ∧
    (∀ (parse : List Char → Option (List TaskSugg)) (content : List Char)
      (r : List Char × List Char × List Char),
      matchJsonBlock content = some r →
      parse (trimChars r.2.1) = none →
      extractTasksAndFormatResponse parse content =
        (trimChars (stripJsonBlocks content), [])) ∧
    (∀ (parse : List Char → Option (List TaskSugg)) (raw : List Char),
      (extractTasksAndFormatResponse parse raw).2 = [] →
      uploadRouteOutcome parse raw =
        .error 400 "No tasks were found in the AI response") := by
  refine ⟨?_, ?_, ?_⟩
  · intro parse content h
    simp [extractTasksAndFormatResponse, h]
  · intro parse content r h hp
    simp [extractTasksAndFormatResponse, h, hp]
  · intro parse raw h
    simp [uploadRouteOutcome, h]

/-- C9 (witness): the degrade behaviour at concrete inputs — plain text
with no code block comes back unchanged with no tasks. -/
theorem C9_degrade_amended_witness :
    extractTasksAndFormatResponse (fun _ => none) ("no tasks here".toList) =
      ("no tasks here".toList, []) :=
  C9_degrade_amended.1 (fun _ => none) ("no tasks here".toList) rfl

/-- C3 (witness): applied with `windowStart` at midnight of a Saturday
(day 2 of the epoch, 1970-01-03): the finder over that Saturday and Sunday
returns nothing, and the general theorem is instantiated at a returned
slot of a Monday-start window. -/
theorem C3_working_hours_weekdays_witness :
    (findAvailableTimeSlots [] 60 (2 * 1440) (4 * 1440) = []) ∧
    (∃ d : Int, isWeekend d = false ∧
      dayOpen d ≤ (⟨6300, 6780, 480⟩ : FreeSlot).start ∧
      (⟨6300, 6780, 480⟩ : FreeSlot).start < (⟨6300, 6780, 480⟩ : FreeSlot).stop ∧
      (⟨6300, 6780, 480⟩ : FreeSlot).stop ≤ dayClose d) :=
  ⟨by decide,
    (C3_working_hours_weekdays [] 60 (4 * 1440) (5 * 1440)).1
      ⟨6300, 6780, 480⟩ (by decide)⟩

end Workflowpro
